import Mathlib

/- Verification development for the agents_config configuration-resolution
   library.  The document tree, the environment substitution of
   `app/agents_config/base.py`, the validators of
   `app/agents_config/agent_config.py` and `app/agents_config/ai_config.py`
   are embedded shallowly; the reference resolver of `config_loader.py`
   (not present in the source tree) is modelled from the specification. -/

/-- A configuration document node: mappings, sequences and scalars, as
produced by the YAML collaborator (Python dict / list / str / int / bool /
None).  Mappings are ordered association lists, as Python dicts preserve
insertion order. -/
inductive Value where
  | str (s : String)
  | num (n : Int)
  | bool (b : Bool)
  | null
  | list (xs : List Value)
  | dict (kvs : List (String × Value))

/-- Boolean test that the first list is an initial segment of the second. -/
def leadsWith : List Char → List Char → Bool
  | [], _ => true
  | _ :: _, [] => false
  | p :: ps, c :: cs => p == c && leadsWith ps cs

/-- Boolean test that the pattern occurs contiguously somewhere in the list. -/
def containsSeq (pat : List Char) : List Char → Bool
  | [] => leadsWith pat []
  | c :: cs => leadsWith pat (c :: cs) || containsSeq pat cs

/-- Split a character list at the first closing brace, dropping the brace:
the behaviour of the greedy regex fragment matching a name up to the first
closing brace. -/
def splitAtCloseBrace : List Char → Option (List Char × List Char)
  | [] => none
  | c :: cs =>
    if c == '\x7d' then some ([], cs)
    else
      match splitAtCloseBrace cs with
      | some (name, rest) => some (c :: name, rest)
      | none => none

/-- Opening characters of an environment placeholder token. -/
def envOpenChars : List Char := ['$', '\x7b', 'e', 'n', 'v', ':']

/-- Opening characters of a reference placeholder token. -/
def refOpenChars : List Char := ['$', '\x7b', 'r', 'e', 'f', ':']

/-- Try to match a placeholder token with the given opener at the head of
the character list: the opener, a nonempty name free of closing braces,
and a closing brace.  Returns the name and the characters after the token,
mirroring one match of the regex used by `substitute_env_vars`. -/
def matchTokenAt (opener : List Char) (cs : List Char) : Option (String × List Char) :=
  if leadsWith opener cs then
    match splitAtCloseBrace (cs.drop opener.length) with
    | some (name, rest) => if name.isEmpty then none else some (String.mk name, rest)
    | none => none
  else none

/-- Splitting at the close brace consumes at least the brace itself. -/
def splitAtCloseBrace_shrinks :
    ∀ cs p, splitAtCloseBrace cs = some p → p.2.length < cs.length := by
  intro cs
  induction cs with
  | nil => intro p h; simp [splitAtCloseBrace] at h
  | cons c tl ih =>
    intro p h
    by_cases hc : c == '\x7d'
    · simp [splitAtCloseBrace, hc] at h
      subst h
      simp
    · simp only [splitAtCloseBrace, hc, Bool.false_eq_true, if_false] at h
      cases hs : splitAtCloseBrace tl with
      | none => rw [hs] at h; simp at h
      | some q =>
        rw [hs] at h
        simp at h
        have := ih q hs
        subst h
        simp
        omega

/-- A matched token consumes at least one character. -/
def matchTokenAt_shrinks :
    ∀ opener cs q, matchTokenAt opener cs = some q → q.2.length < cs.length := by
  intro opener cs q h
  unfold matchTokenAt at h
  by_cases hl : leadsWith opener cs
  · simp only [hl, if_true] at h
    cases hs : splitAtCloseBrace (cs.drop opener.length) with
    | none => rw [hs] at h; simp at h
    | some p =>
      rw [hs] at h
      by_cases he : p.1.isEmpty
      · simp [he] at h
      · simp [he] at h
        have h1 := splitAtCloseBrace_shrinks _ _ hs
        have h2 : (cs.drop opener.length).length ≤ cs.length := by
          simp [List.length_drop]
        subst h
        simp only []
        omega
  · simp [hl] at h

/-- Match an environment placeholder at the head of the character list. -/
def matchEnvAt (cs : List Char) : Option (String × List Char) :=
  matchTokenAt envOpenChars cs

/-- Match a reference placeholder at the head of the character list. -/
def matchRefAt (cs : List Char) : Option (String × List Char) :=
  matchTokenAt refOpenChars cs

/-- The error message raised by `replace_env_var` in
`EnvSubstitutionMixin.substitute_env_vars` for an unset variable. -/
def envErrMsg (name : String) : String :=
  "Environment variable '" ++ name ++ "' not found"

/-- Character-level environment substitution: the behaviour of
`re.sub(pattern, replace_env_var, value)` in `substitute_env_vars`.  The
scan moves left to right; at a match the environment value is emitted
verbatim (no re-scan of the replacement) and scanning continues after the
token; an unset variable aborts with an error. -/
def subChars (env : String → Option String) (cs : List Char) : Except String (List Char) :=
  match h : matchEnvAt cs with
  | some (name, rest) =>
    match env name with
    | none => .error (envErrMsg name)
    | some v => (subChars env rest).map (fun r => v.data ++ r)
  | none =>
    match cs with
    | [] => .ok []
    | c :: tl => (subChars env tl).map (fun r => c :: r)
termination_by cs.length
decreasing_by
  · exact matchTokenAt_shrinks envOpenChars cs (name, rest) h
  · simp

/-- The environment-variable names of the tokens found by the same scan
that `subChars` performs, in scan order. -/
def envTokens (cs : List Char) : List String :=
  match h : matchEnvAt cs with
  | some (name, rest) => name :: envTokens rest
  | none =>
    match cs with
    | [] => []
    | _ :: tl => envTokens tl
termination_by cs.length
decreasing_by
  · exact matchTokenAt_shrinks envOpenChars cs (name, rest) h
  · simp

mutual
/-- `EnvSubstitutionMixin.substitute_env_vars` (base.py): recursively
substitute `envOpenChars`-tokens in every string of a document.  Strings
go through the regex substitution, dicts and lists are rebuilt member by
member, every other scalar is returned unchanged. -/
def substitute_env_vars (env : String → Option String) (v : Value) : Except String Value :=
  match v with
  | .str s => (subChars env s.data).map (fun cs => .str (String.mk cs))
  | .num n => .ok (.num n)
  | .bool b => .ok (.bool b)
  | .null => .ok .null
  | .list xs => (substEnvList env xs).map Value.list
  | .dict kvs => (substEnvItems env kvs).map Value.dict

/-- Substitution over the elements of a sequence, in order. -/
def substEnvList (env : String → Option String) (xs : List Value) : Except String (List Value) :=
  match xs with
  | [] => .ok []
  | v :: vs => do
    let w ← substitute_env_vars env v
    let ws ← substEnvList env vs
    .ok (w :: ws)

/-- Substitution over the entries of a mapping, in order, keeping keys. -/
def substEnvItems (env : String → Option String) (kvs : List (String × Value)) :
    Except String (List (String × Value)) :=
  match kvs with
  | [] => .ok []
  | (k, v) :: rest => do
    let w ← substitute_env_vars env v
    let ws ← substEnvItems env rest
    .ok ((k, w) :: ws)
end

mutual
/-- The environment-variable names of all tokens in a document, in the
order `substitute_env_vars` encounters them. -/
def valueEnvTokens (v : Value) : List String :=
  match v with
  | .str s => envTokens s.data
  | .num _ => []
  | .bool _ => []
  | .null => []
  | .list xs => listEnvTokens xs
  | .dict kvs => itemsEnvTokens kvs

/-- Token names of the elements of a sequence. -/
def listEnvTokens (xs : List Value) : List String :=
  match xs with
  | [] => []
  | v :: vs => valueEnvTokens v ++ listEnvTokens vs

/-- Token names of the values of a mapping. -/
def itemsEnvTokens (kvs : List (String × Value)) : List String :=
  match kvs with
  | [] => []
  | (_, v) :: rest => valueEnvTokens v ++ itemsEnvTokens rest
end

/-- A string is fully resolved when it contains neither placeholder
opener. -/
def strResolved (s : String) : Bool :=
  !containsSeq envOpenChars s.data && !containsSeq refOpenChars s.data

mutual
/-- A document is fully resolved when every string in it is. -/
def valueResolved (v : Value) : Bool :=
  match v with
  | .str s => strResolved s
  | .num _ => true
  | .bool _ => true
  | .null => true
  | .list xs => listResolved xs
  | .dict kvs => itemsResolved kvs

/-- Resolvedness of the elements of a sequence. -/
def listResolved (xs : List Value) : Bool :=
  match xs with
  | [] => true
  | v :: vs => valueResolved v && listResolved vs

/-- Resolvedness of the values of a mapping. -/
def itemsResolved (kvs : List (String × Value)) : Bool :=
  match kvs with
  | [] => true
  | (_, v) :: rest => valueResolved v && itemsResolved rest
end

/-- Split a string at dots, as Python `"a.b".split(".")` does. -/
def splitDotAux : List Char → List Char → List String
  | [], acc => [String.mk acc.reverse]
  | c :: tl, acc =>
    if c == '.' then String.mk acc.reverse :: splitDotAux tl []
    else splitDotAux tl (c :: acc)

/-- Dot-splitting of a reference path or tool reference string. -/
def splitDot (s : String) : List String :=
  splitDotAux s.data []

/-- Ordered-association-list lookup, the behaviour of Python `dict.get`. -/
def lookupA {α : Type} (k : String) : List (String × α) → Option α
  | [] => none
  | (k2, v) :: rest => if k == k2 then some v else lookupA k rest

/-- Modelled from the spec: path traversal of the reference resolver of
`config_loader.py`, which is not present in the source tree.  Each
dot-separated segment is a mapping key; a segment that is a valid index
descends into a sequence; a missing key or a non-container node fails the
traversal. -/
def lookupPath : Value → List String → Option Value
  | v, [] => some v
  | .dict kvs, s :: rest =>
    match lookupA s kvs with
    | some w => lookupPath w rest
    | none => none
  | .list xs, s :: rest =>
    match s.toNat? with
    | some i =>
      match xs.get? i with
      | some w => lookupPath w rest
      | none => none
    | none => none
  | _, _ :: _ => none

/-- Modelled from the spec: the ReferenceNotFound-class error message of the
missing `config_loader.py`, shaped to the pattern its tests match with
`pytest.raises(ValueError, match="Reference path .* not found")`. -/
def refNotFoundMsg (path : String) : String :=
  "Reference path '" ++ path ++ "' not found"

/-- Modelled from the spec: the CircularReference-class error message of the
missing `config_loader.py`. -/
def circularMsg (path : String) : String :=
  "Circular reference detected at path '" ++ path ++ "'"

/-- A piece of a scalar string under embedded reference substitution:
either a literal character or a reference token's path. -/
inductive RefSeg where
  | lit (c : Char)
  | ref (p : String)

/-- Scan a string into literal characters and reference-token paths, with
the same left-to-right single scan as the substitution regex. -/
def splitRefs (cs : List Char) : List RefSeg :=
  match h : matchRefAt cs with
  | some (p, rest) => .ref p :: splitRefs rest
  | none =>
    match cs with
    | [] => []
    | c :: tl => .lit c :: splitRefs tl
termination_by cs.length
decreasing_by
  · exact matchTokenAt_shrinks refOpenChars cs (p, rest) h
  · simp

/-- The payload of a string that is in its entirety one reference token,
if it is one: whole-value substitution applies exactly then. -/
def wholeRefPayload (s : String) : Option String :=
  match matchRefAt s.data with
  | some (p, []) => some p
  | _ => none

/-- Modelled from the spec: stringification of a value substituted into a
larger string by an embedded reference.  Scalars stringify; the spec
leaves embedded non-scalar substitution open and its design note
recommends rejecting it, so mappings, sequences and null fail. -/
def stringifyScalar : Value → Except String String
  | .str s => .ok s
  | .num n => .ok (toString n)
  | .bool b => .ok (toString b)
  | .null => .error "Cannot stringify a null value into an embedded reference"
  | .list _ => .error "Cannot stringify a sequence into an embedded reference"
  | .dict _ => .error "Cannot stringify a mapping into an embedded reference"

mutual
/-- Modelled from the spec: the reference-resolution pass of the missing
`config_loader.py` over an environment-substituted document.  A string
that is entirely one `$\x7bref:path\x7d` token is replaced by the fully
resolved value at `path` (whole-value substitution); a string containing
embedded tokens has each replaced by its stringified resolved value;
mappings and sequences are rebuilt member by member; other scalars pass
through.  The in-progress path stack realises cycle detection and the
fuel bounds transitive resolution depth. -/
def resolveValue (root : Value) (fuel : Nat) (stack : List String) (v : Value) :
    Except String Value :=
  match v with
  | .str s =>
    if containsSeq refOpenChars s.data then
      match fuel with
      | 0 => .error "Maximum reference resolution depth exceeded"
      | f + 1 =>
        match wholeRefPayload s with
        | some p =>
          if p ∈ stack then .error (circularMsg p)
          else
            match lookupPath root (splitDot p) with
            | none => .error (refNotFoundMsg p)
            | some tv => resolveValue root f (p :: stack) tv
        | none =>
          (resolveSegList root f stack (splitRefs s.data)).map
            (fun cs => .str (String.mk cs))
    else .ok (.str s)
  | .list xs => (resolveList root fuel stack xs).map Value.list
  | .dict kvs => (resolveItems root fuel stack kvs).map Value.dict
  | .num n => .ok (.num n)
  | .bool b => .ok (.bool b)
  | .null => .ok .null
termination_by (fuel, sizeOf v)

/-- Reference resolution over the elements of a sequence. -/
def resolveList (root : Value) (fuel : Nat) (stack : List String) (xs : List Value) :
    Except String (List Value) :=
  match xs with
  | [] => .ok []
  | v :: vs => do
    let w ← resolveValue root fuel stack v
    let ws ← resolveList root fuel stack vs
    .ok (w :: ws)
termination_by (fuel, sizeOf xs)

/-- Reference resolution over the entries of a mapping. -/
def resolveItems (root : Value) (fuel : Nat) (stack : List String)
    (kvs : List (String × Value)) : Except String (List (String × Value)) :=
  match kvs with
  | [] => .ok []
  | (k, v) :: rest => do
    let w ← resolveValue root fuel stack v
    let ws ← resolveItems root fuel stack rest
    .ok ((k, w) :: ws)
termination_by (fuel, sizeOf kvs)

/-- Embedded substitution: resolve every reference segment of a scanned
string, stringify it, and reassemble the text. -/
def resolveSegList (root : Value) (fuel : Nat) (stack : List String)
    (segs : List RefSeg) : Except String (List Char) :=
  match segs with
  | [] => .ok []
  | .lit c :: rest => (resolveSegList root fuel stack rest).map (fun cs => c :: cs)
  | .ref p :: rest =>
    match fuel with
    | 0 => .error "Maximum reference resolution depth exceeded"
    | f + 1 =>
      if p ∈ stack then .error (circularMsg p)
      else
        match lookupPath root (splitDot p) with
        | none => .error (refNotFoundMsg p)
        | some tv => do
          let w ← resolveValue root f (p :: stack) tv
          let text ← stringifyScalar w
          let cs ← resolveSegList root (f + 1) stack rest
          .ok (text.data ++ cs)
termination_by (fuel, sizeOf segs)
end

/-- Modelled from the spec: the resolution pipeline of
`ConfigLoader.load_from_dict` up to typed construction — environment
substitution over the whole document, then reference resolution with the
substituted document as the lookup root. -/
def resolveDocument (env : String → Option String) (fuel : Nat) (doc : Value) :
    Except String Value := do
  let d ← substitute_env_vars env doc
  resolveValue d fuel [] d

/-- System-prompt descriptor of `SystemPromptConfig` (agent_config.py). -/
structure SystemPromptConfig where
  version : String
  path : String

/-- Modelled from the spec: the typed model entity of the missing
`model_config.py` — provider, id, version, provider config mapping and
numeric params, per spec section 3.  `validate_cross_references` in
ai_config.py additionally reads an optional `name` attribute from it, so
the entity carries one. -/
structure ModelConfig where
  name : Option String
  provider : String
  id : String
  version : String
  config : List (String × Value)
  params : List (String × Value)

/-- Modelled from the spec: the OpenAPI tool variant of the missing
`tool_config.py`, kept as its raw field mapping (schema path, headers and
the rest); the claims under proof concern only which variant is chosen. -/
structure OpenAPIToolConfig where
  fields : List (String × Value)

/-- Modelled from the spec: the platform-native (AI Foundry) tool variant
of the missing `tool_config.py`, kept as its raw field mapping. -/
structure AIFoundryToolConfig where
  fields : List (String × Value)

/-- Modelled from the spec: the nested native-tools section of the Tools
container, with its default values and inner tool mapping. -/
structure AIFoundryConfig where
  default_project_endpoint : Option String
  tools : List (String × AIFoundryToolConfig)

/-- Modelled from the spec: the `ToolsConfig` container of the missing
`tool_config.py` — a name-to-OpenAPI-tool mapping and an optional
native-tools section, as traversed by `AIConfig.get_tool`. -/
structure ToolsConfig where
  openapi : List (String × OpenAPIToolConfig)
  ai_foundry : Option AIFoundryConfig

/-- The `model` field of an agent: a reference string not yet resolved, or
the typed model entity (the `Union[str, ModelConfig]` of agent_config.py). -/
inductive ModelRef where
  | str (s : String)
  | cfg (m : ModelConfig)

/-- One element of an agent's `tools` list as `convert_tools_to_objects`
can see it: a reference string, a raw mapping, an already-constructed tool
object of either variant, or a value of any other type. -/
inductive ToolItem where
  | str (s : String)
  | dict (d : List (String × Value))
  | objOpenapi (t : OpenAPIToolConfig)
  | objFoundry (t : AIFoundryToolConfig)
  | other

/-- `AgentConfig` (agent_config.py). -/
structure AgentConfig where
  version : String
  name : String
  description : String
  model : ModelRef
  tools : List ToolItem
  platform : String
  system_prompt : SystemPromptConfig

/-- `AIConfig` (ai_config.py): the root configuration. -/
structure AIConfig where
  version : String
  models : List (String × ModelConfig)
  tools : ToolsConfig
  agents : List (String × AgentConfig)

/-- Key-membership test on a raw mapping, Python `"k" in d`. -/
def hasKey (k : String) (d : List (String × Value)) : Bool :=
  d.any (fun kv => kv.1 == k)

/-- `AgentConfig.validate_model_reference` (agent_config.py): after
resolution the model must be the typed entity; a surviving string is an
error and is never looked up. -/
def validate_model_reference (ac : AgentConfig) : Except String AgentConfig :=
  match ac.model with
  | .str s =>
    .error ("Model reference '" ++ s ++ "' was not resolved to a ModelConfig object")
  | .cfg _ => .ok ac

/-- One step of `AgentConfig.convert_tools_to_objects` (agent_config.py):
variant selection for a single tools-list element. -/
def convertToolItem : ToolItem → Except String ToolItem
  | .str s =>
    .error ("Tool reference '" ++ s ++ "' was not resolved to a configuration object")
  | .dict d =>
    if hasKey "schema_path" d && !hasKey "type" d then
      .ok (.objOpenapi ⟨d⟩)
    else
      .ok (.objFoundry ⟨d⟩)
  | .objOpenapi t => .ok (.objOpenapi t)
  | .objFoundry t => .ok (.objFoundry t)
  | .other => .error "Tool must be a configuration object or dictionary"

/-- Conversion of an agent's whole tools list, first error aborting. -/
def convertToolList : List ToolItem → Except String (List ToolItem)
  | [] => .ok []
  | t :: ts => do
    let u ← convertToolItem t
    let us ← convertToolList ts
    .ok (u :: us)

/-- `AgentConfig.convert_tools_to_objects` (agent_config.py). -/
def convert_tools_to_objects (ac : AgentConfig) : Except String AgentConfig :=
  (convertToolList ac.tools).map (fun ts => { ac with tools := ts })

/-- Insert a string into a sorted list, preserving order. -/
def insertSorted (s : String) : List String → List String
  | [] => [s]
  | t :: ts => if s ≤ t then s :: t :: ts else t :: insertSorted s ts

/-- Insertion sort on strings: Python `sorted` on a set of names. -/
def sortStrings : List String → List String
  | [] => []
  | s :: ss => insertSorted s (sortStrings ss)

/-- Comma-join of rendered elements. -/
def joinComma : List String → String
  | [] => ""
  | [s] => s
  | s :: t :: ts => s ++ ", " ++ joinComma (t :: ts)

/-- Python `repr` of a sorted list of names, as an f-string renders
`sorted(available_models)`. -/
def pyListRepr (xs : List String) : String :=
  "[" ++ joinComma (xs.map (fun s => "'" ++ s ++ "'")) ++ "]"

/-- The error message of `AIConfig.validate_cross_references` for an agent
whose model name is not a defined model. -/
def unknownModelMsg (agentName modelName rendered : String) : String :=
  "Agent '" ++ agentName ++ "' references unknown model '" ++ modelName ++
    "'. Available models: " ++ rendered

/-- The agent loop of `AIConfig.validate_cross_references`: for each agent
in order, when the model and its `name` attribute are truthy the name is
checked against the available model names and the first failure raises; a
string model that is truthy would hit Python attribute lookup on `str`;
the inner loop over the agent's tools does nothing. -/
def checkAgents (avail : List String) (rendered : String) :
    List (String × AgentConfig) → Except String Unit
  | [] => .ok ()
  | (agentName, ac) :: rest =>
    match ac.model with
    | .str s =>
      if s == "" then checkAgents avail rendered rest
      else .error "AttributeError: 'str' object has no attribute 'name'"
    | .cfg m =>
      match m.name with
      | none => checkAgents avail rendered rest
      | some n =>
        if n == "" then checkAgents avail rendered rest
        else if n ∈ avail then checkAgents avail rendered rest
        else .error (unknownModelMsg agentName n rendered)

/-- `AIConfig.validate_cross_references` (ai_config.py). -/
def validate_cross_references (cfg : AIConfig) : Except String AIConfig :=
  let avail := (cfg.models.map Prod.fst).eraseDups
  (checkAgents avail (pyListRepr (sortStrings avail)) cfg.agents).map (fun _ => cfg)

/-- `AIConfig.get_model` (ai_config.py). -/
def get_model (cfg : AIConfig) (name : String) : Option ModelConfig :=
  lookupA name cfg.models

/-- `AIConfig.get_agent` (ai_config.py). -/
def get_agent (cfg : AIConfig) (name : String) : Option AgentConfig :=
  lookupA name cfg.agents

/-- `AIConfig.get_tool` (ai_config.py): resolve a tool-reference string of
one of the two recognised shapes; anything else is a not-found result. -/
def get_tool (cfg : AIConfig) (ref : String) :
    Option (OpenAPIToolConfig ⊕ AIFoundryToolConfig) :=
  if !(ref.data.contains '.') then none
  else
    match splitDot ref with
    | [cat, toolName] =>
      if cat == "openapi" then
        if cfg.tools.openapi.isEmpty then none
        else (lookupA toolName cfg.tools.openapi).map Sum.inl
      else none
    | [cat, sub, toolName] =>
      if cat == "ai_foundry" && sub == "tools" then
        match cfg.tools.ai_foundry with
        | some af =>
          if af.tools.isEmpty then none
          else (lookupA toolName af.tools).map Sum.inr
        | none => none
      else none
    | _ => none

/-- `AIConfig.get_agent_tools` (ai_config.py). -/
def get_agent_tools (cfg : AIConfig) (agentName : String) : List ToolItem :=
  match get_agent cfg agentName with
  | none => []
  | some a => a.tools

/-- `AIConfig.list_models` (ai_config.py). -/
def list_models (cfg : AIConfig) : List String :=
  cfg.models.map Prod.fst

/-- `AIConfig.list_agents` (ai_config.py). -/
def list_agents (cfg : AIConfig) : List String :=
  cfg.agents.map Prod.fst

/-- Replace an agent's tools list, leaving everything else unchanged. -/
def setAgentTools (ts : List ToolItem) (ac : AgentConfig) : AgentConfig :=
  { ac with tools := ts }

/-- Rewrite every agent's tools list through an arbitrary function of the
agent, leaving all other configuration unchanged. -/
def withMappedTools (g : AgentConfig → List ToolItem) (cfg : AIConfig) : AIConfig :=
  { cfg with agents := cfg.agents.map (fun p => (p.1, setAgentTools (g p.2) p.2)) }

/-- Truthiness of the model-name attribute as the cross-reference check
tests it: the agent's model is a typed entity whose name is present and
nonempty. -/
def modelNameNotTruthy (ac : AgentConfig) : Bool :=
  match ac.model with
  | .cfg m =>
    match m.name with
    | none => true
    | some n => n == ""
  | .str _ => false

/-- Characters of an environment token for a given variable name. -/
def envTokenChars (name : String) : List Char :=
  envOpenChars ++ name.data ++ ['\x7d']

/-- Characters of a reference token for a given path. -/
def refTokenChars (p : String) : List Char :=
  refOpenChars ++ p.data ++ ['\x7d']

/-- Projection of the error message of an `Except` result. -/
def errMsgOf {α : Type} : Except String α → Option String
  | .error m => some m
  | .ok _ => none

/-- Whether an `Except` result succeeded. -/
def isOkE {α : Type} : Except String α → Bool
  | .ok _ => true
  | .error _ => false

/-- The environment of the re-scan experiment: variable X holds a text
that is itself an environment token for Y. -/
def tokY : String := String.mk (envTokenChars "Y")

/-- The token string for variable X. -/
def tokX : String := String.mk (envTokenChars "X")

/-- Example environment mapping X to the token text for Y. -/
def envMapC1 : String → Option String := fun n => if n == "X" then some tokY else none

/-- The empty environment: every variable unset. -/
def envNone : String → Option String := fun _ => none

/-- The spec's missing-environment example document:
models.m.config.api_key holds a token for the unset UNSET_VAR. -/
def docMissingEnv : Value :=
  .dict [("models", .dict [("m", .dict [("config",
    .dict [("api_key", .str (String.mk (envTokenChars "UNSET_VAR")))])])])]

/-- A system prompt for example agents. -/
def examplePrompt : SystemPromptConfig := { version := "1.0", path := "test.md" }

/-- Build an example agent with the given name, model and tools. -/
def mkAgent (name : String) (model : ModelRef) (tools : List ToolItem) : AgentConfig :=
  { version := "1.0", name := name, description := "example agent", model := model,
    tools := tools, platform := "azure_openai", system_prompt := examplePrompt }

/-- Build an example typed model carrying the given name attribute. -/
def mkModelNamed (n : Option String) : ModelConfig :=
  { name := n, provider := "azure_openai", id := "gpt-4", version := "1.0",
    config := [("api_key", Value.str "test-key")], params := [] }

/-- The empty tools container. -/
def emptyTools : ToolsConfig := { openapi := [], ai_foundry := none }

/-- A configuration with two agents referencing two distinct unknown
models: two independent cross-reference violations. -/
def cfgTwoUnknown : AIConfig :=
  { version := "1.0", models := [], tools := emptyTools,
    agents := [("a1", mkAgent "a1" (.cfg (mkModelNamed (some "ghost-a"))) []),
               ("a2", mkAgent "a2" (.cfg (mkModelNamed (some "ghost-b"))) [])] }

/-- An agent whose model field is still an unresolved reference string. -/
def agentStrModel : AgentConfig :=
  mkAgent "invalid-agent" (.str "models.gpt-4") []

/-- A tool mapping with a schema path and no type key. -/
def dOpenapiEx : List (String × Value) :=
  [("schema_path", .str "tools/demo.json"), ("version", .str "1.0")]

/-- A tool mapping with a type key. -/
def dFoundryEx : List (String × Value) :=
  [("name", .str "opoint"), ("type", .str "api"), ("schema_path", .str "x.json")]

/-- The path of the nonexistent model of the invalid-reference test. -/
def refPathC6 : String := "models.nonexistent-model"

/-- The whole-string reference token for that path. -/
def refStrC6 : String := String.mk (refTokenChars refPathC6)

/-- The document of `test_invalid_model_reference`: one valid model, one
agent whose model references a nonexistent model. -/
def rootC6 : Value :=
  .dict [("version", .str "1.0"),
         ("models", .dict [("valid-model", .dict
           [("provider", .str "azure_openai"), ("id", .str "gpt-4"),
            ("version", .str "1.0"),
            ("config", .dict [("api_key", .str "test-key")])])]),
         ("agents", .dict [("invalid-agent", .dict
           [("version", .str "1.0"), ("name", .str "invalid-agent"),
            ("description", .str "Agent with invalid model reference"),
            ("model", .str refStrC6),
            ("platform", .str "azure_openai"),
            ("system_prompt", .dict [("version", .str "1.0"), ("path", .str "test.md")]),
            ("tools", .list [])])]),
         ("tools", .dict [])]

/-- A configuration with a populated tools container for facade queries. -/
def cfgFacade : AIConfig :=
  { version := "1.0",
    models := [("m1", mkModelNamed none)],
    tools := { openapi := [("weather", ⟨[("schema_path", Value.str "w.json")]⟩)],
               ai_foundry := some { default_project_endpoint := none,
                                    tools := [("bing", ⟨[("type", Value.str "api")]⟩)] } },
    agents := [("a1", mkAgent "a1" (.cfg (mkModelNamed none)) [])] }

/-- A fully resolved example document: no placeholder anywhere. -/
def docResolvedEx : Value :=
  .dict [("version", .str "1.0"),
         ("models", .dict [("m", .dict [("provider", .str "azure_openai"),
                                        ("id", .str "gpt-4")])]),
         ("count", .num 2), ("flag", .bool true), ("nothing", .null),
         ("seq", .list [.str "plain", .num 7])]

/-- A configuration whose agent's resolved model has no name attribute and
whose tools list holds an arbitrary unchecked entry. -/
def cfgNoName : AIConfig :=
  { version := "1.0", models := [], tools := emptyTools,
    agents := [("a1", mkAgent "a1" (.cfg (mkModelNamed none)) [ToolItem.other])] }

/-- Whether an agent passes the cross-reference model check without
raising: the model name is not truthy, or it names an available model. -/
def agentPassesCheck (avail : List String) (ac : AgentConfig) : Bool :=
  match ac.model with
  | .str s => s == ""
  | .cfg m =>
    match m.name with
    | none => true
    | some n => n == "" || avail.contains n

/-- Composition of maps over an Except value. -/
theorem exceptMap_map {α β γ : Type} (f : α → β) (g : β → γ) (e : Except String α) :
    (e.map f).map g = e.map (fun x => g (f x)) := by
  cases e <;> rfl

/-- Induction over documents with member hypotheses for containers. -/
theorem Value.myInduction (P : Value → Prop)
    (hstr : ∀ s, P (.str s)) (hnum : ∀ n, P (.num n))
    (hbool : ∀ b, P (.bool b)) (hnull : P .null)
    (hlist : ∀ xs, (∀ v ∈ xs, P v) → P (.list xs))
    (hdict : ∀ kvs, (∀ kv ∈ kvs, P kv.2) → P (.dict kvs)) :
    ∀ v, P v
  | .str s => hstr s
  | .num n => hnum n
  | .bool b => hbool b
  | .null => hnull
  | .list xs => hlist xs (fun v hv =>
      have : sizeOf v < 1 + sizeOf xs := by
        have := List.sizeOf_lt_of_mem hv
        omega
      Value.myInduction P hstr hnum hbool hnull hlist hdict v)
  | .dict kvs => hdict kvs (fun kv hkv =>
      have : sizeOf kv.2 < 1 + sizeOf kvs := by
        have h1 := List.sizeOf_lt_of_mem hkv
        have h2 : sizeOf kv.2 < sizeOf kv := by
          cases kv with
          | mk a b => simp
        omega
      Value.myInduction P hstr hnum hbool hnull hlist hdict kv.2)
termination_by v => sizeOf v

/-- A successful token match starts with the opener. -/
theorem matchTokenAt_leads (opener cs : List Char) (q : String × List Char)
    (h : matchTokenAt opener cs = some q) : leadsWith opener cs = true := by
  unfold matchTokenAt at h
  by_cases hl : leadsWith opener cs
  · exact hl
  · simp [hl] at h

/-- A list not starting with the opener has no token match at its head. -/
theorem matchTokenAt_not_leads (opener cs : List Char)
    (h : leadsWith opener cs = false) : matchTokenAt opener cs = none := by
  unfold matchTokenAt
  simp [h]

/-- A list starts with itself followed by anything. -/
theorem leadsWith_append (pat rest : List Char) : leadsWith pat (pat ++ rest) = true := by
  induction pat with
  | nil => rfl
  | cons p ps ih => simp [leadsWith, ih]

/-- A list starting with the pattern contains it. -/
theorem containsSeq_of_leads (pat cs : List Char) (h : leadsWith pat cs = true) :
    containsSeq pat cs = true := by
  cases cs with
  | nil => simpa [containsSeq] using h
  | cons c tl => simp [containsSeq, h]

/-- The pattern occurs in any list that embeds it contiguously. -/
theorem containsSeq_append_mid (pat pre suf : List Char) :
    containsSeq pat (pre ++ (pat ++ suf)) = true := by
  induction pre with
  | nil => exact containsSeq_of_leads pat (pat ++ suf) (leadsWith_append pat suf)
  | cons c tl ih =>
    cases h : (c :: tl) ++ (pat ++ suf) with
    | nil => simp at h
    | cons d dl =>
      simp only [List.cons_append] at h
      cases h
      simp [containsSeq]
      right
      exact ih

/-- Without an occurrence of the opener there is no token match. -/
theorem matchTokenAt_none_of_not_contains (opener cs : List Char)
    (h : containsSeq opener cs = false) : matchTokenAt opener cs = none := by
  apply matchTokenAt_not_leads
  by_cases hl : leadsWith opener cs
  · rw [containsSeq_of_leads opener cs hl] at h
    cases h
  · simpa using hl

/-- Splitting a list that is a brace-free segment, a closing brace and a
tail recovers the segment and the tail. -/
theorem splitAtCloseBrace_append (n s : List Char) (h : '\x7d' ∉ n) :
    splitAtCloseBrace (n ++ '\x7d' :: s) = some (n, s) := by
  induction n with
  | nil => simp [splitAtCloseBrace]
  | cons c tl ih =>
    have hc : (c == '\x7d') = false := by
      simp only [List.mem_cons] at h
      simp only [beq_eq_false_iff_ne, ne_eq]
      intro hcc
      exact h (Or.inl hcc.symm)
    have htl : '\x7d' ∉ tl := fun hm => h (List.mem_cons_of_mem c hm)
    simp [splitAtCloseBrace, hc, ih htl]

/-- A full token at the head of a list matches, producing the name and the
characters after the closing brace. -/
theorem matchTokenAt_token (opener n s : List Char) (hn : n ≠ [])
    (hb : '\x7d' ∉ n) :
    matchTokenAt opener (opener ++ (n ++ '\x7d' :: s)) = some (String.mk n, s) := by
  unfold matchTokenAt
  rw [leadsWith_append opener (n ++ '\x7d' :: s)]
  simp only [if_true]
  rw [List.drop_left opener (n ++ '\x7d' :: s)]
  rw [splitAtCloseBrace_append n s hb]
  simp [List.isEmpty_iff, hn]

/-- Unfolding of `subChars` at a successful token match. -/
theorem subChars_some (env : String → Option String) (cs : List Char) (name : String)
    (rest : List Char) (h : matchEnvAt cs = some (name, rest)) :
    subChars env cs =
      match env name with
      | none => .error (envErrMsg name)
      | some v => (subChars env rest).map (fun r => v.data ++ r) := by
  rw [subChars]
  split
  · rename_i name2 rest2 h2
    rw [h] at h2
    cases h2
    rfl
  · rename_i h2
    rw [h] at h2
    cases h2

/-- Unfolding of `subChars` when no token matches at the head. -/
theorem subChars_none_cons (env : String → Option String) (c : Char) (tl : List Char)
    (h : matchEnvAt (c :: tl) = none) :
    subChars env (c :: tl) = (subChars env tl).map (fun r => c :: r) := by
  rw [subChars]
  split
  · rename_i name2 rest2 h2
    rw [h] at h2
    cases h2
  · rfl

/-- `subChars` on the empty string. -/
theorem subChars_nil (env : String → Option String) : subChars env [] = .ok [] := by
  rw [subChars]
  rfl

/-- Unfolding of `envTokens` at a successful token match. -/
theorem envTokens_some (cs : List Char) (name : String) (rest : List Char)
    (h : matchEnvAt cs = some (name, rest)) :
    envTokens cs = name :: envTokens rest := by
  rw [envTokens]
  split
  · rename_i name2 rest2 h2
    rw [h] at h2
    cases h2
    rfl
  · rename_i h2
    rw [h] at h2
    cases h2

/-- Unfolding of `envTokens` when no token matches at the head. -/
theorem envTokens_none_cons (c : Char) (tl : List Char)
    (h : matchEnvAt (c :: tl) = none) :
    envTokens (c :: tl) = envTokens tl := by
  rw [envTokens]
  split
  · rename_i name2 rest2 h2
    rw [h] at h2
    cases h2
  · rfl

/-- `envTokens` on the empty string. -/
theorem envTokens_nil : envTokens [] = [] := by
  rw [envTokens]
  rfl

/-- A string with no occurrence of the environment opener passes through
`subChars` unchanged. -/
theorem subChars_noop (env : String → Option String) (cs : List Char)
    (h : containsSeq envOpenChars cs = false) : subChars env cs = .ok cs := by
  induction cs with
  | nil => exact subChars_nil env
  | cons c tl ih =>
    simp only [containsSeq, Bool.or_eq_false_iff] at h
    rw [subChars_none_cons env c tl
      (matchTokenAt_none_of_not_contains envOpenChars (c :: tl)
        (by simp [containsSeq, h.1, h.2]))]
    rw [ih h.2]
    rfl

/-- If `subChars` succeeds, every scanned token's variable is set. -/
theorem subChars_ok_tokens (env : String → Option String) :
    ∀ cs r, subChars env cs = .ok r → ∀ n ∈ envTokens cs, (env n).isSome = true := by
  intro cs
  induction cs using subChars.induct env with
  | case1 cs name rest h henv =>
    intro r hr
    rw [subChars_some env cs name rest h, henv] at hr
    cases hr
  | case2 cs name rest h v henv ih =>
    intro r hr n hn
    rw [envTokens_some cs name rest h] at hn
    rw [subChars_some env cs name rest h, henv] at hr
    cases hrest : subChars env rest with
    | error m => rw [hrest] at hr; cases hr
    | ok rr =>
      cases List.mem_cons.mp hn with
      | inl heq => subst heq; simp [henv]
      | inr hmem => exact ih rr hrest n hmem
  | case3 h1 h2 =>
    intro r hr n hn
    rw [envTokens_nil] at hn
    cases hn
  | case4 c tl h1 h2 ih =>
    intro r hr n hn
    rw [envTokens_none_cons c tl h1] at hn
    rw [subChars_none_cons env c tl h1] at hr
    cases hrest : subChars env tl with
    | error m => rw [hrest] at hr; cases hr
    | ok rr => exact ih rr hrest n hn

/-- If `subChars` fails, the message is the unset-variable error of some
scanned token whose variable is indeed unset. -/
theorem subChars_error_token (env : String → Option String) :
    ∀ cs m, subChars env cs = .error m →
      ∃ n, n ∈ envTokens cs ∧ env n = none ∧ m = envErrMsg n := by
  intro cs
  induction cs using subChars.induct env with
  | case1 cs name rest h henv =>
    intro m hm
    rw [subChars_some env cs name rest h, henv] at hm
    cases hm
    exact ⟨name, by rw [envTokens_some cs name rest h]; exact List.mem_cons_self name _,
      henv, rfl⟩
  | case2 cs name rest h v henv ih =>
    intro m hm
    rw [subChars_some env cs name rest h, henv] at hm
    cases hrest : subChars env rest with
    | error m2 =>
      rw [hrest] at hm
      cases hm
      obtain ⟨n, hn1, hn2, hn3⟩ := ih _ hrest
      exact ⟨n, by rw [envTokens_some cs name rest h]; exact List.mem_cons_of_mem name hn1,
        hn2, hn3⟩
    | ok rr => rw [hrest] at hm; cases hm
  | case3 h1 h2 =>
    intro m hm
    rw [subChars_nil] at hm
    cases hm
  | case4 c tl h1 h2 ih =>
    intro m hm
    rw [subChars_none_cons env c tl h1] at hm
    cases hrest : subChars env tl with
    | error m2 =>
      rw [hrest] at hm
      cases hm
      obtain ⟨n, hn1, hn2, hn3⟩ := ih _ hrest
      exact ⟨n, by rw [envTokens_none_cons c tl h1]; exact hn1, hn2, hn3⟩
    | ok rr => rw [hrest] at hm; cases hm

/-- A leading character other than a dollar sign can start no token. -/
theorem matchEnvAt_cons_ne_dollar (c : Char) (tl : List Char) (h : c ≠ '$') :
    matchEnvAt (c :: tl) = none := by
  apply matchTokenAt_not_leads
  simp only [envOpenChars, leadsWith, Bool.and_eq_false_iff]
  left
  simp [beq_eq_false_iff_ne]
  intro hc
  exact h hc.symm

/-- The splice behaviour of one substitution: a dollar-free piece of text,
then a token with a set variable, then a tail — the environment value is
emitted verbatim and the scan resumes after the token, never inside the
substituted value. -/
theorem subChars_splice (env : String → Option String) (p n s : List Char) (v : String)
    (hp : ∀ c ∈ p, c ≠ '$') (hn : n ≠ []) (hb : '\x7d' ∉ n)
    (hv : env (String.mk n) = some v) :
    subChars env (p ++ (envOpenChars ++ (n ++ '\x7d' :: s))) =
      (subChars env s).map (fun r => p ++ (v.data ++ r)) := by
  induction p with
  | nil =>
    rw [List.nil_append]
    rw [subChars_some env _ (String.mk n) s (matchTokenAt_token envOpenChars n s hn hb)]
    rw [hv]
    simp
  | cons c ptl ih =>
    have hc : c ≠ '$' := hp c (List.mem_cons_self c ptl)
    rw [List.cons_append]
    rw [subChars_none_cons env c _ (matchEnvAt_cons_ne_dollar c _ hc)]
    rw [ih (fun d hd => hp d (List.mem_cons_of_mem c hd))]
    rw [exceptMap_map]
    rfl

/-- A resolved string has no environment opener. -/
theorem strResolved_no_env (s : String) (h : strResolved s = true) :
    containsSeq envOpenChars s.data = false := by
  unfold strResolved at h
  cases he : containsSeq envOpenChars s.data with
  | false => rfl
  | true => rw [he] at h; simp at h

/-- A resolved string has no reference opener. -/
theorem strResolved_no_ref (s : String) (h : strResolved s = true) :
    containsSeq refOpenChars s.data = false := by
  unfold strResolved at h
  cases he : containsSeq refOpenChars s.data with
  | false => rfl
  | true => rw [he] at h; simp at h

/-- Elementwise no-op of list substitution, given the member property. -/
theorem substEnvList_noop_of (env : String → Option String) (xs : List Value)
    (hm : ∀ v ∈ xs, valueResolved v = true → substitute_env_vars env v = .ok v)
    (hr : listResolved xs = true) : substEnvList env xs = .ok xs := by
  induction xs with
  | nil => rw [substEnvList]
  | cons v vs ih =>
    rw [listResolved] at hr
    simp only [Bool.and_eq_true] at hr
    rw [substEnvList]
    rw [hm v (List.mem_cons_self v vs) hr.1]
    rw [ih (fun w hw => hm w (List.mem_cons_of_mem v hw)) hr.2]
    rfl

/-- Elementwise no-op of mapping substitution, given the member property. -/
theorem substEnvItems_noop_of (env : String → Option String) (kvs : List (String × Value))
    (hm : ∀ kv ∈ kvs, valueResolved kv.2 = true → substitute_env_vars env kv.2 = .ok kv.2)
    (hr : itemsResolved kvs = true) : substEnvItems env kvs = .ok kvs := by
  induction kvs with
  | nil => rw [substEnvItems]
  | cons kv rest ih =>
    cases kv with
    | mk k v =>
      rw [itemsResolved] at hr
      simp only [Bool.and_eq_true] at hr
      rw [substEnvItems]
      rw [hm (k, v) (List.mem_cons_self (k, v) rest) hr.1]
      rw [ih (fun w hw => hm w (List.mem_cons_of_mem (k, v) hw)) hr.2]
      rfl

/-- Environment substitution is the identity on a document with no
environment opener in any string. -/
theorem substEnv_noop (env : String → Option String) :
    ∀ v, valueResolved v = true → substitute_env_vars env v = .ok v := by
  intro v
  induction v using Value.myInduction with
  | hstr s =>
    intro h
    rw [valueResolved] at h
    rw [substitute_env_vars]
    rw [subChars_noop env s.data (strResolved_no_env s h)]
    rfl
  | hnum n => intro h; rw [substitute_env_vars]
  | hbool b => intro h; rw [substitute_env_vars]
  | hnull => intro h; rw [substitute_env_vars]
  | hlist xs ih =>
    intro h
    rw [valueResolved] at h
    rw [substitute_env_vars]
    rw [substEnvList_noop_of env xs ih h]
    rfl
  | hdict kvs ih =>
    intro h
    rw [valueResolved] at h
    rw [substitute_env_vars]
    rw [substEnvItems_noop_of env kvs ih h]
    rfl

/-- Success of list substitution implies every element's tokens are set,
given the member property. -/
theorem substEnvList_ok_tokens_of (env : String → Option String) (xs : List Value)
    (hm : ∀ v ∈ xs, ∀ w, substitute_env_vars env v = .ok w →
      ∀ n ∈ valueEnvTokens v, (env n).isSome = true) :
    ∀ ws, substEnvList env xs = .ok ws → ∀ n ∈ listEnvTokens xs, (env n).isSome = true := by
  induction xs with
  | nil =>
    intro ws hws n hn
    rw [listEnvTokens] at hn
    cases hn
  | cons v vs ih =>
    intro ws hws n hn
    rw [substEnvList] at hws
    rw [listEnvTokens] at hn
    cases hv : substitute_env_vars env v with
    | error m => rw [hv] at hws; cases hws
    | ok w =>
      rw [hv] at hws
      cases hvs : substEnvList env vs with
      | error m => rw [hvs] at hws; simp only [bind, Except.bind] at hws; cases hws
      | ok wvs =>
        cases List.mem_append.mp hn with
        | inl h1 => exact hm v (List.mem_cons_self v vs) w hv n h1
        | inr h2 =>
          exact ih (fun u hu => hm u (List.mem_cons_of_mem v hu)) wvs hvs n h2

/-- Success of mapping substitution implies every value's tokens are set,
given the member property. -/
theorem substEnvItems_ok_tokens_of (env : String → Option String)
    (kvs : List (String × Value))
    (hm : ∀ kv ∈ kvs, ∀ w, substitute_env_vars env kv.2 = .ok w →
      ∀ n ∈ valueEnvTokens kv.2, (env n).isSome = true) :
    ∀ ws, substEnvItems env kvs = .ok ws →
      ∀ n ∈ itemsEnvTokens kvs, (env n).isSome = true := by
  induction kvs with
  | nil =>
    intro ws hws n hn
    rw [itemsEnvTokens] at hn
    cases hn
  | cons kv rest ih =>
    intro ws hws n hn
    cases kv with
    | mk k v =>
      rw [substEnvItems] at hws
      rw [itemsEnvTokens] at hn
      cases hv : substitute_env_vars env v with
      | error m => rw [hv] at hws; cases hws
      | ok w =>
        rw [hv] at hws
        cases hvs : substEnvItems env rest with
        | error m => rw [hvs] at hws; simp only [bind, Except.bind] at hws; cases hws
        | ok wvs =>
          cases List.mem_append.mp hn with
          | inl h1 => exact hm (k, v) (List.mem_cons_self (k, v) rest) w hv n h1
          | inr h2 =>
            exact ih (fun u hu => hm u (List.mem_cons_of_mem (k, v) hu)) wvs hvs n h2

/-- If substitution over a document succeeds, every token in the document
had its variable set. -/
theorem substEnv_ok_tokens (env : String → Option String) :
    ∀ v w, substitute_env_vars env v = .ok w →
      ∀ n ∈ valueEnvTokens v, (env n).isSome = true := by
  intro v
  induction v using Value.myInduction with
  | hstr s =>
    intro w hw n hn
    rw [substitute_env_vars] at hw
    rw [valueEnvTokens] at hn
    cases hs : subChars env s.data with
    | error m => rw [hs] at hw; cases hw
    | ok r => exact subChars_ok_tokens env s.data r hs n hn
  | hnum n => intro w hw m hm; simp [valueEnvTokens] at hm
  | hbool b => intro w hw m hm; simp [valueEnvTokens] at hm
  | hnull => intro w hw m hm; simp [valueEnvTokens] at hm
  | hlist xs ih =>
    intro w hw n hn
    rw [substitute_env_vars] at hw
    rw [valueEnvTokens] at hn
    cases hs : substEnvList env xs with
    | error m => rw [hs] at hw; cases hw
    | ok ws => exact substEnvList_ok_tokens_of env xs ih ws hs n hn
  | hdict kvs ih =>
    intro w hw n hn
    rw [substitute_env_vars] at hw
    rw [valueEnvTokens] at hn
    cases hs : substEnvItems env kvs with
    | error m => rw [hs] at hw; cases hw
    | ok ws => exact substEnvItems_ok_tokens_of env kvs ih ws hs n hn

/-- A failing list substitution fails with the unset-variable message of a
token of some element, given the member property. -/
theorem substEnvList_error_token_of (env : String → Option String) (xs : List Value)
    (hm : ∀ v ∈ xs, ∀ m, substitute_env_vars env v = .error m →
      ∃ n, n ∈ valueEnvTokens v ∧ env n = none ∧ m = envErrMsg n) :
    ∀ m, substEnvList env xs = .error m →
      ∃ n, n ∈ listEnvTokens xs ∧ env n = none ∧ m = envErrMsg n := by
  induction xs with
  | nil =>
    intro m hmm
    rw [substEnvList] at hmm
    cases hmm
  | cons v vs ih =>
    intro m hmm
    rw [substEnvList] at hmm
    cases hv : substitute_env_vars env v with
    | error m2 =>
      rw [hv] at hmm
      simp only [bind, Except.bind] at hmm
      cases hmm
      obtain ⟨n, hn1, hn2, hn3⟩ := hm v (List.mem_cons_self v vs) _ hv
      exact ⟨n, by rw [listEnvTokens]; exact List.mem_append_left _ hn1, hn2, hn3⟩
    | ok w =>
      rw [hv] at hmm
      cases hvs : substEnvList env vs with
      | error m2 =>
        rw [hvs] at hmm
        simp only [bind, Except.bind] at hmm
        cases hmm
        obtain ⟨n, hn1, hn2, hn3⟩ :=
          ih (fun u hu => hm u (List.mem_cons_of_mem v hu)) _ hvs
        exact ⟨n, by rw [listEnvTokens]; exact List.mem_append_right _ hn1, hn2, hn3⟩
      | ok ws => rw [hvs] at hmm; simp only [bind, Except.bind] at hmm; cases hmm

/-- A failing mapping substitution fails with the unset-variable message of
a token of some value, given the member property. -/
theorem substEnvItems_error_token_of (env : String → Option String)
    (kvs : List (String × Value))
    (hm : ∀ kv ∈ kvs, ∀ m, substitute_env_vars env kv.2 = .error m →
      ∃ n, n ∈ valueEnvTokens kv.2 ∧ env n = none ∧ m = envErrMsg n) :
    ∀ m, substEnvItems env kvs = .error m →
      ∃ n, n ∈ itemsEnvTokens kvs ∧ env n = none ∧ m = envErrMsg n := by
  induction kvs with
  | nil =>
    intro m hmm
    rw [substEnvItems] at hmm
    cases hmm
  | cons kv rest ih =>
    intro m hmm
    cases kv with
    | mk k v =>
      rw [substEnvItems] at hmm
      cases hv : substitute_env_vars env v with
      | error m2 =>
        rw [hv] at hmm
        simp only [bind, Except.bind] at hmm
        cases hmm
        obtain ⟨n, hn1, hn2, hn3⟩ := hm (k, v) (List.mem_cons_self (k, v) rest) _ hv
        exact ⟨n, by rw [itemsEnvTokens]; exact List.mem_append_left _ hn1, hn2, hn3⟩
      | ok w =>
        rw [hv] at hmm
        cases hvs : substEnvItems env rest with
        | error m2 =>
          rw [hvs] at hmm
          simp only [bind, Except.bind] at hmm
          cases hmm
          obtain ⟨n, hn1, hn2, hn3⟩ :=
            ih (fun u hu => hm u (List.mem_cons_of_mem (k, v) hu)) _ hvs
          exact ⟨n, by rw [itemsEnvTokens]; exact List.mem_append_right _ hn1, hn2, hn3⟩
        | ok ws => rw [hvs] at hmm; simp only [bind, Except.bind] at hmm; cases hmm

/-- If substitution over a document fails, the message is the
unset-variable error of some token of the document whose variable is
unset. -/
theorem substEnv_error_token (env : String → Option String) :
    ∀ v m, substitute_env_vars env v = .error m →
      ∃ n, n ∈ valueEnvTokens v ∧ env n = none ∧ m = envErrMsg n := by
  intro v
  induction v using Value.myInduction with
  | hstr s =>
    intro m hm
    rw [substitute_env_vars] at hm
    cases hs : subChars env s.data with
    | error m2 =>
      rw [hs] at hm
      cases hm
      obtain ⟨n, hn1, hn2, hn3⟩ := subChars_error_token env s.data _ hs
      exact ⟨n, by rw [valueEnvTokens]; exact hn1, hn2, hn3⟩
    | ok r => rw [hs] at hm; cases hm
  | hnum n => intro m hm; rw [substitute_env_vars] at hm; cases hm
  | hbool b => intro m hm; rw [substitute_env_vars] at hm; cases hm
  | hnull => intro m hm; rw [substitute_env_vars] at hm; cases hm
  | hlist xs ih =>
    intro m hm
    rw [substitute_env_vars] at hm
    cases hs : substEnvList env xs with
    | error m2 =>
      rw [hs] at hm
      cases hm
      obtain ⟨n, hn1, hn2, hn3⟩ := substEnvList_error_token_of env xs ih _ hs
      exact ⟨n, by rw [valueEnvTokens]; exact hn1, hn2, hn3⟩
    | ok ws => rw [hs] at hm; cases hm
  | hdict kvs ih =>
    intro m hm
    rw [substitute_env_vars] at hm
    cases hs : substEnvItems env kvs with
    | error m2 =>
      rw [hs] at hm
      cases hm
      obtain ⟨n, hn1, hn2, hn3⟩ := substEnvItems_error_token_of env kvs ih _ hs
      exact ⟨n, by rw [valueEnvTokens]; exact hn1, hn2, hn3⟩
    | ok ws => rw [hs] at hm; cases hm

/-- A successful list substitution substitutes elementwise in order. -/
theorem substEnvList_forall2 (env : String → Option String) :
    ∀ xs ys, substEnvList env xs = .ok ys →
      List.Forall₂ (fun a b => substitute_env_vars env a = .ok b) xs ys := by
  intro xs
  induction xs with
  | nil =>
    intro ys h
    rw [substEnvList] at h
    cases h
    exact List.Forall₂.nil
  | cons v vs ih =>
    intro ys h
    rw [substEnvList] at h
    cases hv : substitute_env_vars env v with
    | error m => rw [hv] at h; cases h
    | ok w =>
      rw [hv] at h
      cases hvs : substEnvList env vs with
      | error m => rw [hvs] at h; simp only [bind, Except.bind] at h; cases h
      | ok ws =>
        rw [hvs] at h
        simp only [bind, Except.bind, pure] at h
        cases h
        exact List.Forall₂.cons hv (ih ws hvs)

/-- A successful mapping substitution preserves the key list and
substitutes values in order. -/
theorem substEnvItems_keys_forall2 (env : String → Option String) :
    ∀ kvs ws, substEnvItems env kvs = .ok ws →
      ws.map Prod.fst = kvs.map Prod.fst ∧
        List.Forall₂ (fun a b => a.1 = b.1 ∧ substitute_env_vars env a.2 = .ok b.2) kvs ws := by
  intro kvs
  induction kvs with
  | nil =>
    intro ws h
    rw [substEnvItems] at h
    cases h
    exact ⟨rfl, List.Forall₂.nil⟩
  | cons kv rest ih =>
    intro ws h
    cases kv with
    | mk k v =>
      rw [substEnvItems] at h
      cases hv : substitute_env_vars env v with
      | error m => rw [hv] at h; cases h
      | ok w =>
        rw [hv] at h
        cases hvs : substEnvItems env rest with
        | error m => rw [hvs] at h; simp only [bind, Except.bind] at h; cases h
        | ok us =>
          rw [hvs] at h
          simp only [bind, Except.bind, pure] at h
          cases h
          obtain ⟨hk, hf⟩ := ih us hvs
          constructor
          · simp [hk]
          · exact List.Forall₂.cons ⟨rfl, hv⟩ hf

/-- A string with no reference opener passes through resolution unchanged,
whatever the root, fuel and stack. -/
theorem resolveValue_str_noref (root : Value) (fuel : Nat) (stack : List String)
    (s : String) (h : containsSeq refOpenChars s.data = false) :
    resolveValue root fuel stack (.str s) = .ok (.str s) := by
  rw [resolveValue.eq_def]
  simp only [h, Bool.false_eq_true, if_false]

/-- Unfolding of resolution on a sequence node. -/
theorem resolveValue_list (root : Value) (fuel : Nat) (stack : List String)
    (xs : List Value) :
    resolveValue root fuel stack (.list xs) =
      (resolveList root fuel stack xs).map Value.list := by
  rw [resolveValue.eq_def]

/-- Unfolding of resolution on a mapping node. -/
theorem resolveValue_dict (root : Value) (fuel : Nat) (stack : List String)
    (kvs : List (String × Value)) :
    resolveValue root fuel stack (.dict kvs) =
      (resolveItems root fuel stack kvs).map Value.dict := by
  rw [resolveValue.eq_def]

/-- Elementwise no-op of sequence resolution, given the member property. -/
theorem resolveList_noop_of (root : Value) (fuel : Nat) (stack : List String)
    (xs : List Value)
    (hm : ∀ v ∈ xs, valueResolved v = true →
      resolveValue root fuel stack v = .ok v)
    (hr : listResolved xs = true) : resolveList root fuel stack xs = .ok xs := by
  induction xs with
  | nil => rw [resolveList]
  | cons v vs ih =>
    rw [listResolved] at hr
    simp only [Bool.and_eq_true] at hr
    rw [resolveList]
    rw [hm v (List.mem_cons_self v vs) hr.1]
    rw [ih (fun w hw => hm w (List.mem_cons_of_mem v hw)) hr.2]
    rfl

/-- Elementwise no-op of mapping resolution, given the member property. -/
theorem resolveItems_noop_of (root : Value) (fuel : Nat) (stack : List String)
    (kvs : List (String × Value))
    (hm : ∀ kv ∈ kvs, valueResolved kv.2 = true →
      resolveValue root fuel stack kv.2 = .ok kv.2)
    (hr : itemsResolved kvs = true) : resolveItems root fuel stack kvs = .ok kvs := by
  induction kvs with
  | nil => rw [resolveItems]
  | cons kv rest ih =>
    cases kv with
    | mk k v =>
      rw [itemsResolved] at hr
      simp only [Bool.and_eq_true] at hr
      rw [resolveItems]
      rw [hm (k, v) (List.mem_cons_self (k, v) rest) hr.1]
      rw [ih (fun w hw => hm w (List.mem_cons_of_mem (k, v) hw)) hr.2]
      rfl

/-- Reference resolution is the identity on a document with no reference
opener in any string, whatever the root, fuel and stack. -/
theorem resolveValue_noop (root : Value) (fuel : Nat) (stack : List String) :
    ∀ v, valueResolved v = true → resolveValue root fuel stack v = .ok v := by
  intro v
  induction v using Value.myInduction with
  | hstr s =>
    intro h
    rw [valueResolved] at h
    exact resolveValue_str_noref root fuel stack s (strResolved_no_ref s h)
  | hnum n => intro h; rw [resolveValue.eq_def]
  | hbool b => intro h; rw [resolveValue.eq_def]
  | hnull => intro h; rw [resolveValue.eq_def]
  | hlist xs ih =>
    intro h
    rw [valueResolved] at h
    rw [resolveValue_list]
    rw [resolveList_noop_of root fuel stack xs ih h]
    rfl
  | hdict kvs ih =>
    intro h
    rw [valueResolved] at h
    rw [resolveValue_dict]
    rw [resolveItems_noop_of root fuel stack kvs ih h]
    rfl

/-- A string that is in its entirety a reference token whose path cannot be
traversed makes resolution fail with the ReferenceNotFound message carrying
that path. -/
theorem resolveValue_refToken_notFound (root : Value) (fuel : Nat) (p s : String)
    (hs : s.data = refTokenChars p) (hn : p.data ≠ []) (hb : '\x7d' ∉ p.data)
    (hl : lookupPath root (splitDot p) = none) :
    resolveValue root (fuel + 1) [] (.str s) = .error (refNotFoundMsg p) := by
  have hcs : containsSeq refOpenChars s.data = true := by
    rw [hs]
    unfold refTokenChars
    have := containsSeq_append_mid refOpenChars [] (p.data ++ ['\x7d'])
    simpa using this
  have hmr : matchRefAt s.data = some (p, []) := by
    rw [hs]
    unfold refTokenChars
    have hp : String.mk p.data = p := rfl
    have := matchTokenAt_token refOpenChars p.data [] hn hb
    unfold matchRefAt
    simpa [hp] using this
  have hw : wholeRefPayload s = some p := by
    unfold wholeRefPayload
    rw [hmr]
  rw [resolveValue.eq_def]
  simp only [hcs, if_true]
  rw [hw]
  simp [hl]

/-- A string built around a middle piece contains the middle piece's
characters contiguously. -/
theorem containsSeq_in_string (pre mid suf : String) :
    containsSeq mid.data (pre ++ mid ++ suf).data = true := by
  have h : (pre ++ mid ++ suf).data = pre.data ++ (mid.data ++ suf.data) := by
    rw [String.data_append, String.data_append, List.append_assoc]
  rw [h]
  exact containsSeq_append_mid mid.data pre.data suf.data

/-- The full resolution pipeline is the identity on a document that is
already fully resolved. -/
theorem resolveDocument_noop (env : String → Option String) (fuel : Nat) (doc : Value)
    (h : valueResolved doc = true) : resolveDocument env fuel doc = .ok doc := by
  unfold resolveDocument
  rw [substEnv_noop env doc h]
  simp only [bind, Except.bind]
  exact resolveValue_noop doc fuel [] doc h

/-- An agent passing the model check is skipped by the agent loop. -/
theorem checkAgents_cons_pass (avail : List String) (rendered : String)
    (a : String) (ac : AgentConfig) (rest : List (String × AgentConfig))
    (h : agentPassesCheck avail ac = true) :
    checkAgents avail rendered ((a, ac) :: rest) = checkAgents avail rendered rest := by
  unfold agentPassesCheck at h
  rw [checkAgents]
  cases hm : ac.model with
  | str s =>
    rw [hm] at h
    dsimp only at h ⊢
    simp [h]
  | cfg m =>
    rw [hm] at h
    dsimp only at h ⊢
    cases hn : m.name with
    | none => dsimp only
    | some n =>
      rw [hn] at h
      dsimp only at h ⊢
      simp only [Bool.or_eq_true] at h
      rcases h with he | hc
      · simp [he]
      · have hmem : n ∈ avail := by simpa using hc
        by_cases he : (n == "") = true
        · simp [he]
        · simp [he, hmem]

/-- An agent whose truthy model name is not an available model makes the
agent loop raise the unknown-model error for that agent at once. -/
theorem checkAgents_cons_fail (avail : List String) (rendered : String)
    (a : String) (ac : AgentConfig) (rest : List (String × AgentConfig))
    (m : ModelConfig) (n : String) (hm : ac.model = .cfg m)
    (hn : m.name = some n) (hne : n ≠ "") (hmem : n ∉ avail) :
    checkAgents avail rendered ((a, ac) :: rest) =
      .error (unknownModelMsg a n rendered) := by
  rw [checkAgents]
  rw [hm]
  dsimp only
  rw [hn]
  dsimp only
  simp [hne, hmem]

/-- The agent loop accepts a list of agents that all skip the model
check. -/
theorem checkAgents_ok_of_all (avail : List String) (rendered : String) :
    ∀ agents : List (String × AgentConfig),
      (∀ p ∈ agents, modelNameNotTruthy p.2 = true) →
      checkAgents avail rendered agents = .ok () := by
  intro agents
  induction agents with
  | nil => intro h; rw [checkAgents]
  | cons p rest ih =>
    intro h
    cases p with
    | mk a ac =>
      have hp := h (a, ac) (List.mem_cons_self (a, ac) rest)
      unfold modelNameNotTruthy at hp
      rw [checkAgents]
      cases hm : ac.model with
      | str s =>
        rw [hm] at hp
        dsimp only at hp
        cases hp
      | cfg m =>
        rw [hm] at hp
        dsimp only at hp ⊢
        cases hn : m.name with
        | none =>
          dsimp only
          exact ih (fun q hq => h q (List.mem_cons_of_mem (a, ac) hq))
        | some n =>
          rw [hn] at hp
          dsimp only at hp ⊢
          simp [hp]
          exact ih (fun q hq => h q (List.mem_cons_of_mem (a, ac) hq))

/-- The agent loop never reads the agents' tools lists. -/
theorem checkAgents_map_tools (avail : List String) (rendered : String)
    (g : AgentConfig → List ToolItem) :
    ∀ agents : List (String × AgentConfig),
      checkAgents avail rendered
          (agents.map (fun p => (p.1, setAgentTools (g p.2) p.2))) =
        checkAgents avail rendered agents := by
  intro agents
  induction agents with
  | nil => rfl
  | cons p rest ih =>
    cases p with
    | mk a ac =>
      rw [List.map_cons]
      rw [checkAgents]
      conv_rhs => rw [checkAgents]
      dsimp only [setAgentTools]
      cases hm : ac.model with
      | str s =>
        dsimp only
        by_cases hs : (s == "") = true
        · simp only [hs, if_true]
          exact ih
        · simp only [hs, Bool.false_eq_true, if_false]
      | cfg m =>
        dsimp only
        cases hn : m.name with
        | none => exact ih
        | some n =>
          dsimp only
          by_cases he : (n == "") = true
          · simp only [he, if_true]
            exact ih
          · simp only [he, Bool.false_eq_true, if_false]
            by_cases hmem : n ∈ avail
            · rw [if_pos hmem, if_pos hmem]
              exact ih
            · rw [if_neg hmem, if_neg hmem]

/-- Claim C4: for every agent whose model field is still a string when
`validate_model_reference` runs, construction fails with an error stating
the reference was not resolved, and the string is never looked up (the
validator consults no model table at all); a typed model is accepted. -/
theorem C4_unresolved_string_model (ac : AgentConfig) :
    (∀ s, ac.model = .str s →
      validate_model_reference ac =
        .error ("Model reference '" ++ s ++ "' was not resolved to a ModelConfig object")) ∧
    (∀ m, ac.model = .cfg m → validate_model_reference ac = .ok ac) := by
  constructor
  · intro s hs
    unfold validate_model_reference
    rw [hs]
  · intro m hm
    unfold validate_model_reference
    rw [hm]

/-- Witness for C4 at a concrete agent with a surviving string model. -/
theorem C4_unresolved_string_model_witness :
    validate_model_reference agentStrModel =
      .error ("Model reference 'models.gpt-4' was not resolved to a ModelConfig object") :=
  (C4_unresolved_string_model agentStrModel).1 "models.gpt-4" rfl

/-- Claim C5: a tool mapping with a `schema_path` key and no `type` key
constructs the OpenAPI variant; a mapping with a `type` key or without
`schema_path` constructs the native variant; a non-mapping, non-object
tools entry is a construction error. -/
theorem C5_tool_variant (d : List (String × Value)) :
    (hasKey "schema_path" d = true → hasKey "type" d = false →
      convertToolItem (.dict d) = .ok (.objOpenapi ⟨d⟩)) ∧
    (hasKey "type" d = true ∨ hasKey "schema_path" d = false →
      convertToolItem (.dict d) = .ok (.objFoundry ⟨d⟩)) ∧
    (∀ s, convertToolItem (.str s) =
      .error ("Tool reference '" ++ s ++ "' was not resolved to a configuration object")) ∧
    convertToolItem .other = .error "Tool must be a configuration object or dictionary" := by
  refine ⟨?_, ?_, fun s => rfl, rfl⟩
  · intro h1 h2
    unfold convertToolItem
    simp [h1, h2]
  · intro h
    unfold convertToolItem
    cases h with
    | inl ht => simp [ht]
    | inr hs => simp [hs]

/-- Witness for C5 at concrete mappings of both shapes. -/
theorem C5_tool_variant_witness :
    convertToolItem (.dict dOpenapiEx) = .ok (.objOpenapi ⟨dOpenapiEx⟩) ∧
    convertToolItem (.dict dFoundryEx) = .ok (.objFoundry ⟨dFoundryEx⟩) :=
  ⟨(C5_tool_variant dOpenapiEx).1 (by decide) (by decide),
   (C5_tool_variant dFoundryEx).2.1 (Or.inl (by decide))⟩

/-- Claim C10: the cross-reference validator checks an agent's model only
when its name attribute is truthy — a configuration whose agents' resolved
models all have an empty or missing name validates successfully with no
model-existence check — and the agents' tools lists never influence the
validator's outcome. -/
theorem C10_cross_check_gaps (cfg : AIConfig) :
    ((∀ p ∈ cfg.agents, modelNameNotTruthy p.2 = true) →
      validate_cross_references cfg = .ok cfg) ∧
    (∀ g : AgentConfig → List ToolItem,
      validate_cross_references (withMappedTools g cfg) =
        (validate_cross_references cfg).map (withMappedTools g)) := by
  constructor
  · intro h
    unfold validate_cross_references
    dsimp only
    rw [checkAgents_ok_of_all _ _ cfg.agents h]
    rfl
  · intro g
    unfold validate_cross_references
    dsimp only
    have hmodels : (withMappedTools g cfg).models = cfg.models := rfl
    have hagents : (withMappedTools g cfg).agents =
        cfg.agents.map (fun p => (p.1, setAgentTools (g p.2) p.2)) := rfl
    rw [hmodels, hagents]
    rw [checkAgents_map_tools]
    cases hc : checkAgents ((cfg.models.map Prod.fst).eraseDups)
        (pyListRepr (sortStrings ((cfg.models.map Prod.fst).eraseDups))) cfg.agents with
    | ok u => cases u; rfl
    | error m => rfl

/-- Witness for C10 at a configuration whose one agent's model has no name
and whose tools list holds an unchecked arbitrary entry. -/
theorem C10_cross_check_gaps_witness :
    validate_cross_references cfgNoName = .ok cfgNoName ∧
    validate_cross_references (withMappedTools (fun _ => []) cfgNoName) =
      (validate_cross_references cfgNoName).map (withMappedTools (fun _ => [])) :=
  ⟨(C10_cross_check_gaps cfgNoName).1 (by decide),
   (C10_cross_check_gaps cfgNoName).2 (fun _ => [])⟩

/-- Claim C7: the facade queries are total and never raise — an absent
model or agent name yields an absent result and an empty tools list, and a
tool-reference string of unrecognised segment count, unrecognised leading
category, or with an absent tool name yields a not-found result. -/
theorem C7_facade_not_found (cfg : AIConfig) (name ref : String) :
    (lookupA name cfg.models = none → get_model cfg name = none) ∧
    (lookupA name cfg.agents = none →
      get_agent cfg name = none ∧ get_agent_tools cfg name = []) ∧
    (∀ a b, splitDot ref = [a, b] → (a == "openapi") = false →
      get_tool cfg ref = none) ∧
    (∀ b, splitDot ref = ["openapi", b] → lookupA b cfg.tools.openapi = none →
      get_tool cfg ref = none) ∧
    (∀ a b c, splitDot ref = [a, b, c] → (a == "ai_foundry") = false →
      get_tool cfg ref = none) ∧
    ((splitDot ref).length ≠ 2 → (splitDot ref).length ≠ 3 →
      get_tool cfg ref = none) := by
  refine ⟨?_, ?_, ?_, ?_, ?_, ?_⟩
  · intro h
    unfold get_model
    exact h
  · intro h
    have hg : get_agent cfg name = none := h
    refine ⟨hg, ?_⟩
    unfold get_agent_tools
    rw [hg]
  · intro a b hs hne
    unfold get_tool
    by_cases hdot : ref.data.contains '.'
    · simp only [hdot, Bool.not_true, Bool.false_eq_true, if_false]
      rw [hs]
      dsimp only
      simp [hne]
    · simp [hdot]
      intro hmem
      exact absurd hmem (by simpa using hdot)
  · intro b hs hl
    unfold get_tool
    by_cases hdot : ref.data.contains '.'
    · simp only [hdot, Bool.not_true, Bool.false_eq_true, if_false]
      rw [hs]
      dsimp only
      by_cases he : cfg.tools.openapi.isEmpty
      · simp [he]
      · simp [he, hl]
    · simp [hdot]
      intro hmem
      exact absurd hmem (by simpa using hdot)
  · intro a b c hs hne
    unfold get_tool
    by_cases hdot : ref.data.contains '.'
    · simp only [hdot, Bool.not_true, Bool.false_eq_true, if_false]
      rw [hs]
      dsimp only
      simp [hne]
    · simp [hdot]
      intro hmem
      exact absurd hmem (by simpa using hdot)
  · intro h2 h3
    unfold get_tool
    by_cases hdot : ref.data.contains '.'
    · simp only [hdot, Bool.not_true, Bool.false_eq_true, if_false]
      cases hs : splitDot ref with
      | nil => rfl
      | cons a tl =>
        cases tl with
        | nil => rfl
        | cons b tl2 =>
          cases tl2 with
          | nil => rw [hs] at h2; simp at h2
          | cons c tl3 =>
            cases tl3 with
            | nil => rw [hs] at h3; simp at h3
            | cons d tl4 => rfl
    · simp [hdot]
      intro hmem
      exact absurd hmem (by simpa using hdot)

/-- Witness for C7 at a concrete configuration and concrete reference
strings of each unrecognised shape. -/
theorem C7_facade_not_found_witness :
    get_model cfgFacade "absent" = none ∧
    get_agent cfgFacade "absent" = none ∧
    get_agent_tools cfgFacade "absent" = [] ∧
    get_tool cfgFacade "weird.x" = none ∧
    get_tool cfgFacade "openapi.absent" = none ∧
    get_tool cfgFacade "strange.tools.bing" = none ∧
    get_tool cfgFacade "a.b.c.d" = none := by
  refine ⟨?_, ?_, ?_, ?_, ?_, ?_, ?_⟩
  · exact (C7_facade_not_found cfgFacade "absent" "x").1 rfl
  · exact ((C7_facade_not_found cfgFacade "absent" "x").2.1 rfl).1
  · exact ((C7_facade_not_found cfgFacade "absent" "x").2.1 rfl).2
  · exact (C7_facade_not_found cfgFacade "x" "weird.x").2.2.1 "weird" "x" rfl (by decide)
  · exact (C7_facade_not_found cfgFacade "x" "openapi.absent").2.2.2.1 "absent" rfl rfl
  · exact (C7_facade_not_found cfgFacade "x" "strange.tools.bing").2.2.2.2.1
      "strange" "tools" "bing" rfl (by decide)
  · exact (C7_facade_not_found cfgFacade "x" "a.b.c.d").2.2.2.2.2 (by decide) (by decide)

/-- Claim C2: a document containing an environment token whose variable is
unset makes substitution fail with the error naming an unset variable of
the document — no partially substituted result is produced and no default
is supplied. -/
theorem C2_missing_env_fails (env : String → Option String) (v : Value) (N : String)
    (hmem : N ∈ valueEnvTokens v) (hunset : env N = none) :
    ∃ M, M ∈ valueEnvTokens v ∧ env M = none ∧
      substitute_env_vars env v = .error (envErrMsg M) ∧
      containsSeq M.data (envErrMsg M).data = true := by
  cases hres : substitute_env_vars env v with
  | ok w =>
    have hsome := substEnv_ok_tokens env v w hres N hmem
    rw [hunset] at hsome
    simp at hsome
  | error m =>
    obtain ⟨M, h1, h2, h3⟩ := substEnv_error_token env v m hres
    subst h3
    refine ⟨M, h1, h2, rfl, ?_⟩
    have hmsg : envErrMsg M = "Environment variable '" ++ M ++ "' not found" := rfl
    rw [hmsg]
    exact containsSeq_in_string "Environment variable '" M "' not found"

/-- Witness for C2 at the spec's missing-environment example document with
every variable unset. -/
theorem C2_missing_env_fails_witness :
    ∃ M, M ∈ valueEnvTokens docMissingEnv ∧ envNone M = none ∧
      substitute_env_vars envNone docMissingEnv = .error (envErrMsg M) ∧
      containsSeq M.data (envErrMsg M).data = true := by
  have hm : matchEnvAt (envOpenChars ++ "UNSET_VAR".data ++ ['\x7d']) =
      some ("UNSET_VAR", []) := by
    have := matchTokenAt_token envOpenChars ("UNSET_VAR".data) [] (by decide) (by decide)
    unfold matchEnvAt
    simpa using this
  have htok : envTokens (envTokenChars "UNSET_VAR") = ["UNSET_VAR"] := by
    unfold envTokenChars
    rw [envTokens_some _ "UNSET_VAR" [] hm, envTokens_nil]
  have hdata : (String.mk (envTokenChars "UNSET_VAR")).data =
      envTokenChars "UNSET_VAR" := rfl
  refine C2_missing_env_fails envNone docMissingEnv "UNSET_VAR" ?_ rfl
  unfold docMissingEnv
  simp [valueEnvTokens, itemsEnvTokens, hdata, htok]

/-- Claim C8: environment substitution is structural — non-string scalars
pass through unchanged, sequences and mappings are rebuilt member by
member preserving keys and order with each value substituted, strings go
through the left-to-right text substitution, and an embedded token with a
set variable is replaced by the environment text inside the surrounding
string. -/
theorem C8_structural_substitution (env : String → Option String) :
    (∀ n : Int, substitute_env_vars env (.num n) = .ok (.num n)) ∧
    (∀ b, substitute_env_vars env (.bool b) = .ok (.bool b)) ∧
    (substitute_env_vars env .null = .ok .null) ∧
    (∀ s, substitute_env_vars env (.str s) =
      (subChars env s.data).map (fun cs => .str (String.mk cs))) ∧
    (∀ xs w, substitute_env_vars env (.list xs) = .ok w →
      ∃ ys, w = .list ys ∧
        List.Forall₂ (fun a b => substitute_env_vars env a = .ok b) xs ys) ∧
    (∀ kvs w, substitute_env_vars env (.dict kvs) = .ok w →
      ∃ ws, w = .dict ws ∧ ws.map Prod.fst = kvs.map Prod.fst ∧
        List.Forall₂ (fun a b => a.1 = b.1 ∧ substitute_env_vars env a.2 = .ok b.2) kvs ws) ∧
    (∀ p n s v, (∀ c ∈ p, c ≠ '$') → n ≠ ([] : List Char) → '\x7d' ∉ n →
      env (String.mk n) = some v →
      subChars env (p ++ (envOpenChars ++ (n ++ '\x7d' :: s))) =
        (subChars env s).map (fun r => p ++ (v.data ++ r))) := by
  refine ⟨fun n => by rw [substitute_env_vars],
         fun b => by rw [substitute_env_vars],
         by rw [substitute_env_vars],
         fun s => by rw [substitute_env_vars],
         ?_, ?_, subChars_splice env⟩
  · intro xs w h
    rw [substitute_env_vars] at h
    cases hs : substEnvList env xs with
    | error m => rw [hs] at h; cases h
    | ok ys =>
      rw [hs] at h
      simp only [Except.map] at h
      cases h
      exact ⟨ys, rfl, substEnvList_forall2 env xs ys hs⟩
  · intro kvs w h
    rw [substitute_env_vars] at h
    cases hs : substEnvItems env kvs with
    | error m => rw [hs] at h; cases h
    | ok ws =>
      rw [hs] at h
      simp only [Except.map] at h
      cases h
      obtain ⟨hk, hf⟩ := substEnvItems_keys_forall2 env kvs ws hs
      exact ⟨ws, rfl, hk, hf⟩

/-- Witness for C8 at concrete scalars, a concrete sequence and a concrete
embedded token. -/
theorem C8_structural_substitution_witness :
    substitute_env_vars envMapC1 (.num 3) = .ok (.num 3) ∧
    (∃ ys, Value.list [Value.null] = Value.list ys ∧
      List.Forall₂ (fun a b => substitute_env_vars envMapC1 a = .ok b)
        [Value.null] ys) ∧
    subChars envMapC1 (['a'] ++ (envOpenChars ++ ("X".data ++ '\x7d' :: []))) =
      (subChars envMapC1 []).map (fun r => ['a'] ++ (tokY.data ++ r)) := by
  refine ⟨(C8_structural_substitution envMapC1).1 3, ?_, ?_⟩
  · refine (C8_structural_substitution envMapC1).2.2.2.2.1 [Value.null]
      (Value.list [Value.null]) ?_
    rw [substitute_env_vars, substEnvList, substitute_env_vars, substEnvList]
    rfl
  · exact (C8_structural_substitution envMapC1).2.2.2.2.2.2 ['a'] ("X".data) [] tokY
      (by decide) (by decide) (by decide) rfl

/-- Claim C9: resolution is idempotent — on a document already free of
environment and reference placeholders in every string, the resolution
pipeline is a no-op returning an equal document, for any fuel. -/
theorem C9_resolution_idempotent (env : String → Option String) (fuel : Nat)
    (doc : Value) (h : valueResolved doc = true) :
    resolveDocument env fuel doc = .ok doc :=
  resolveDocument_noop env fuel doc h

/-- Witness for C9 at a concrete fully resolved document. -/
theorem C9_resolution_idempotent_witness :
    resolveDocument envNone 0 docResolvedEx = .ok docResolvedEx := by
  refine C9_resolution_idempotent envNone 0 docResolvedEx ?_
  unfold docResolvedEx
  simp [valueResolved, itemsResolved, listResolved, strResolved, containsSeq,
    leadsWith, envOpenChars, refOpenChars]

/-- Claim C6: a whole-string reference token whose path has a segment that
cannot be traversed in the document makes resolution fail with the
ReferenceNotFound error, whose message includes the offending path. -/
theorem C6_reference_not_found (root : Value) (fuel : Nat) (p s : String)
    (hs : s.data = refTokenChars p) (hp : p.data ≠ []) (hb : '\x7d' ∉ p.data)
    (hl : lookupPath root (splitDot p) = none) :
    resolveValue root (fuel + 1) [] (.str s) = .error (refNotFoundMsg p) ∧
    containsSeq p.data (refNotFoundMsg p).data = true := by
  refine ⟨resolveValue_refToken_notFound root fuel p s hs hp hb hl, ?_⟩
  have hmsg : refNotFoundMsg p = "Reference path '" ++ p ++ "' not found" := rfl
  rw [hmsg]
  exact containsSeq_in_string "Reference path '" p "' not found"

/-- Witness for C6 at the invalid-model-reference test document and its
nonexistent path. -/
theorem C6_reference_not_found_witness :
    resolveValue rootC6 1 [] (.str refStrC6) = .error (refNotFoundMsg refPathC6) ∧
    containsSeq refPathC6.data (refNotFoundMsg refPathC6).data = true :=
  C6_reference_not_found rootC6 0 refPathC6 refStrC6 rfl (by decide) (by decide) rfl

/-- Counterexample to claim C1 as stated: with variable X bound to the
token text for Y, the whole pipeline (environment then reference pass)
completes successfully on the document consisting of the X token, yet the
result still contains a complete environment token, so a string value of
the result does match the environment placeholder pattern. -/
theorem C1_fixed_point_counterexample :
    substitute_env_vars envMapC1 (.str tokX) = .ok (.str tokY) ∧
    resolveDocument envMapC1 1 (.str tokX) = .ok (.str tokY) ∧
    envTokens tokY.data = ["Y"] ∧
    containsSeq envOpenChars tokY.data = true := by
  have hX : envMapC1 "X" = some tokY := rfl
  have hsub : subChars envMapC1 (envTokenChars "X") = .ok tokY.data := by
    have hsp := subChars_splice envMapC1 [] ("X".data) [] tokY
      (by intro c hc; cases hc) (by decide) (by decide) hX
    rw [subChars_nil] at hsp
    simpa [envTokenChars] using hsp
  have h1 : substitute_env_vars envMapC1 (.str tokX) = .ok (.str tokY) := by
    rw [substitute_env_vars]
    have hdX : tokX.data = envTokenChars "X" := rfl
    rw [hdX, hsub]
    have hmk : String.mk tokY.data = tokY := rfl
    simp [Except.map, hmk]
  refine ⟨h1, ?_, ?_, ?_⟩
  · unfold resolveDocument
    rw [h1]
    simp only [bind, Except.bind]
    exact resolveValue_str_noref (.str tokY) 1 [] tokY (by decide)
  · have hdY : tokY.data = envTokenChars "Y" := rfl
    rw [hdY]
    have hm : matchEnvAt (envOpenChars ++ "Y".data ++ ['\x7d']) = some ("Y", []) := by
      have := matchTokenAt_token envOpenChars ("Y".data) [] (by decide) (by decide)
      unfold matchEnvAt
      simpa using this
    unfold envTokenChars
    rw [envTokens_some _ "Y" [] hm, envTokens_nil]
  · have hdY : tokY.data = envTokenChars "Y" := rfl
    rw [hdY]
    unfold envTokenChars
    have := containsSeq_append_mid envOpenChars [] ("Y".data ++ ['\x7d'])
    simpa using this

/-- Claim C1 (amended): environment substitution is a single left-to-right
pass that splices each raw environment value into the output without
re-scanning it, so a token whose variable is set is always consumed, but a
placeholder inside a substituted environment value survives verbatim to
the output. -/
theorem C1_token_passthrough (env : String → Option String) (n v : String)
    (s : List Char) (hn : n.data ≠ []) (hb : '\x7d' ∉ n.data)
    (hv : env n = some v) :
    subChars env (envTokenChars n ++ s) =
      (subChars env s).map (fun r => v.data ++ r) := by
  have hv2 : env (String.mk n.data) = some v := hv
  have hsp := subChars_splice env [] (n.data) s v (by intro c hc; cases hc) hn hb hv2
  simpa [envTokenChars] using hsp

/-- Witness for the amended C1 at the concrete re-scan experiment. -/
theorem C1_token_passthrough_witness :
    subChars envMapC1 (envTokenChars "X" ++ []) =
      (subChars envMapC1 []).map (fun r => tokY.data ++ r) :=
  C1_token_passthrough envMapC1 "X" tokY [] (by decide) (by decide) rfl

/-- Counterexample to claim C3 as stated: a configuration with two agents
referencing two distinct unknown models raises an error carrying only the
first violation — the second model name appears nowhere in it. -/
theorem C3_single_error_counterexample :
    errMsgOf (validate_cross_references cfgTwoUnknown) =
      some (unknownModelMsg "a1" "ghost-a" "[]") ∧
    containsSeq ("ghost-b".data) ((unknownModelMsg "a1" "ghost-a" "[]").data) = false := by
  constructor
  · rfl
  · decide

/-- Claim C3 (amended): cross-reference validation raises on the first
unknown-model violation in agent iteration order, reporting only that
violation. -/
theorem C3_first_violation_only (cfg : AIConfig) (pre post : List (String × AgentConfig))
    (a : String) (ac : AgentConfig) (m : ModelConfig) (n : String)
    (hagents : cfg.agents = pre ++ (a, ac) :: post)
    (hpre : ∀ q ∈ pre, agentPassesCheck ((cfg.models.map Prod.fst).eraseDups) q.2 = true)
    (hm : ac.model = .cfg m) (hn : m.name = some n) (hne : n ≠ "")
    (hmem : n ∉ (cfg.models.map Prod.fst).eraseDups) :
    validate_cross_references cfg =
      .error (unknownModelMsg a n
        (pyListRepr (sortStrings ((cfg.models.map Prod.fst).eraseDups)))) := by
  unfold validate_cross_references
  dsimp only
  rw [hagents]
  have key : ∀ pre2 : List (String × AgentConfig),
      (∀ q ∈ pre2, agentPassesCheck ((cfg.models.map Prod.fst).eraseDups) q.2 = true) →
      checkAgents ((cfg.models.map Prod.fst).eraseDups)
          (pyListRepr (sortStrings ((cfg.models.map Prod.fst).eraseDups)))
          (pre2 ++ (a, ac) :: post) =
        .error (unknownModelMsg a n
          (pyListRepr (sortStrings ((cfg.models.map Prod.fst).eraseDups)))) := by
    intro pre2
    induction pre2 with
    | nil =>
      intro hq
      rw [List.nil_append]
      exact checkAgents_cons_fail _ _ a ac post m n hm hn hne hmem
    | cons q qs ih =>
      intro hq
      cases q with
      | mk qa qc =>
        rw [List.cons_append]
        rw [checkAgents_cons_pass _ _ qa qc _
          (hq (qa, qc) (List.mem_cons_self (qa, qc) _))]
        exact ih (fun t ht => hq t (List.mem_cons_of_mem (qa, qc) ht))
  rw [key pre hpre]
  rfl

/-- Witness for the amended C3 at the two-unknown-model configuration. -/
theorem C3_first_violation_only_witness :
    validate_cross_references cfgTwoUnknown =
      .error (unknownModelMsg "a1" "ghost-a"
        (pyListRepr (sortStrings ((cfgTwoUnknown.models.map Prod.fst).eraseDups)))) :=
  C3_first_violation_only cfgTwoUnknown []
    [("a2", mkAgent "a2" (.cfg (mkModelNamed (some "ghost-b"))) [])]
    "a1" (mkAgent "a1" (.cfg (mkModelNamed (some "ghost-a"))) [])
    (mkModelNamed (some "ghost-a")) "ghost-a"
    rfl (by intro q hq; cases hq) rfl rfl (by decide) (by decide)
